import Mathlib

/-!
Verification of the expo wait-times ETL pipeline (himariseino/expo-wait-times-visualization).

This file gives a shallow embedding, in Lean 4, of the pure data-processing
core of the repository — the duration/staleness text parsers, the name
normalizer, the entity resolver, the time-feature enricher, the fact-store
upsert, and the read-side aggregation queries — and proves the specified
properties about them.

Conventions of the embedding:
* Python strings are Lean `String`s; character classes (`\s`, `\d` of the
  `re` module) are explicit decidable predicates on `Char`.
* The anchored regular expressions of `WAIT_PATTERNS` / `STALE_PATTERNS`
  are deterministic, so each is embedded as a total matching function that
  consumes the string exactly as the (greedy, backtracking-free) regex does.
* SQLite tables are lists of rows; `INSERT OR IGNORE` under a primary key is
  a fold of a conditional append; `GROUP BY` / `AVG` / `ORDER BY` / `LIMIT`
  are grouping, exact rational means, insertion sort and `take`.
* Unicode NFKC normalization is modelled as a character-level map over the
  character classes that occur in this domain (full-width ASCII forms,
  ideographic space, no-break space); on these classes NFKC is char-wise.
-/

namespace Expo

/-- Python `\s` (Unicode whitespace as matched by `re` on `str`, and the
characters removed by `str.strip()`). -/
def isPySpace (c : Char) : Bool :=
  c.toNat = 0x20 || (0x09 ≤ c.toNat && c.toNat ≤ 0x0d) ||
  (0x1c ≤ c.toNat && c.toNat ≤ 0x1f) || c.toNat = 0x85 || c.toNat = 0xa0 ||
  c.toNat = 0x1680 || (0x2000 ≤ c.toNat && c.toNat ≤ 0x200a) ||
  c.toNat = 0x2028 || c.toNat = 0x2029 || c.toNat = 0x202f ||
  c.toNat = 0x205f || c.toNat = 0x3000

/-- Python `\d` (Unicode decimal digit): ASCII digits and the full-width
digits U+FF10–U+FF19, the classes occurring in this data. -/
def isPyDigit (c : Char) : Bool :=
  (0x30 ≤ c.toNat && c.toNat ≤ 0x39) || (0xff10 ≤ c.toNat && c.toNat ≤ 0xff19)

/-- Numeric value of one decimal digit (ASCII or full-width), as `int()`
reads it. -/
def digitVal (c : Char) : Nat :=
  if 0xff10 ≤ c.toNat then c.toNat - 0xff10 else c.toNat - '0'.toNat

/-- `int()` applied to a nonempty string of decimal digits. -/
def digitsVal (ds : List Char) : Nat :=
  ds.foldl (fun a c => a * 10 + digitVal c) 0

/-- Python `str.strip()` on a list of characters. -/
def stripChars (cs : List Char) : List Char :=
  ((cs.dropWhile isPySpace).reverse.dropWhile isPySpace).reverse

/-- Python `str.strip()`. -/
def stripStr (s : String) : String :=
  ⟨stripChars s.toList⟩

/-- Consume an exact literal from the front of a character list
(the regex's literal part). -/
def expectLit (lit cs : List Char) : Option (List Char) :=
  if lit.isPrefixOf cs then some (cs.drop lit.length) else none

/-- Greedily consume `\d+`: the maximal nonempty run of digits. -/
def takeDigits (cs : List Char) : Option (List Char × List Char) :=
  let ds := cs.takeWhile isPyDigit
  if ds.isEmpty then none else some (ds, cs.dropWhile isPyDigit)

/-- The regex `^\s*(\d+)時間(\d+)分以下\s*$` (first entry of `WAIT_PATTERNS`):
on a match, the two captured groups as numbers. -/
def matchHourMinLe (s : String) : Option (Nat × Nat) :=
  let cs := s.toList.dropWhile isPySpace
  match takeDigits cs with
  | none => none
  | some (d1, r1) =>
    match expectLit ['時', '間'] r1 with
    | none => none
    | some r2 =>
      match takeDigits r2 with
      | none => none
      | some (d2, r3) =>
        match expectLit ['分', '以', '下'] r3 with
        | none => none
        | some r4 =>
          if r4.all isPySpace then some (digitsVal d1, digitsVal d2) else none

/-- The regex `^\s*(\d+)時間(\d+)分\s*$` (second entry of `WAIT_PATTERNS`). -/
def matchHourMin (s : String) : Option (Nat × Nat) :=
  let cs := s.toList.dropWhile isPySpace
  match takeDigits cs with
  | none => none
  | some (d1, r1) =>
    match expectLit ['時', '間'] r1 with
    | none => none
    | some r2 =>
      match takeDigits r2 with
      | none => none
      | some (d2, r3) =>
        match expectLit ['分'] r3 with
        | none => none
        | some r4 =>
          if r4.all isPySpace then some (digitsVal d1, digitsVal d2) else none

/-- The regex `^\s*(\d+)分以下\s*$` (third entry of `WAIT_PATTERNS`). -/
def matchMinLe (s : String) : Option Nat :=
  let cs := s.toList.dropWhile isPySpace
  match takeDigits cs with
  | none => none
  | some (d1, r1) =>
    match expectLit ['分', '以', '下'] r1 with
    | none => none
    | some r2 =>
      if r2.all isPySpace then some (digitsVal d1) else none

/-- The regex `^\s*(\d+)分\s*$` (fourth entry of `WAIT_PATTERNS`). -/
def matchMin (s : String) : Option Nat :=
  let cs := s.toList.dropWhile isPySpace
  match takeDigits cs with
  | none => none
  | some (d1, r1) =>
    match expectLit ['分'] r1 with
    | none => none
    | some r2 =>
      if r2.all isPySpace then some (digitsVal d1) else none

/-- The sentinel strings checked by `parse_wait_time` after stripping. -/
def isWaitSentinel (s : String) : Bool :=
  s = "情報なし" || s = "—" || s = "-" || s = "不明" || s = ""

/-- `parse_wait_time` of `src/etl/etl.py`: strip, test the sentinel set,
then try the four `WAIT_PATTERNS` in order, first match wins, computing
`int(h)*60 + int(m)` (respectively `int(m)`). -/
def parse_wait_time (raw : String) : Option Nat :=
  let s := stripStr raw
  if isWaitSentinel s then none
  else
    match matchHourMinLe s with
    | some (h, m) => some (h * 60 + m)
    | none =>
      match matchHourMin s with
      | some (h, m) => some (h * 60 + m)
      | none =>
        match matchMinLe s with
        | some m => some m
        | none =>
          match matchMin s with
          | some m => some m
          | none => none

/-- The regex `^\s*(\d+)分前\s*$` (first entry of `STALE_PATTERNS`):
on a match, the captured group as a number. -/
def matchMinAgoG (s : String) : Option Nat :=
  let cs := s.toList.dropWhile isPySpace
  match takeDigits cs with
  | none => none
  | some (d1, r1) =>
    match expectLit ['分', '前'] r1 with
    | none => none
    | some r2 =>
      if r2.all isPySpace then some (digitsVal d1) else none

/-- The regex `^\s*(\d+)時間前\s*$` (second entry of `STALE_PATTERNS`):
on a match, the captured group as a number. -/
def matchHourAgoG (s : String) : Option Nat :=
  let cs := s.toList.dropWhile isPySpace
  match takeDigits cs with
  | none => none
  | some (d1, r1) =>
    match expectLit ['時', '間', '前'] r1 with
    | none => none
    | some r2 =>
      if r2.all isPySpace then some (digitsVal d1) else none

/-- The groupless regex `^\s*60分以上前\s*$` (third entry of
`STALE_PATTERNS`). -/
def matchFloor60G (s : String) : Option Unit :=
  let cs := s.toList.dropWhile isPySpace
  match expectLit ['6', '0', '分', '以', '上', '前'] cs with
  | none => none
  | some r1 =>
    if r1.all isPySpace then some () else none

/-- First entry of `STALE_PATTERNS` with its `lambda m: int(m)`. -/
def staleMinAgo (s : String) : Option Nat :=
  (matchMinAgoG s).map (fun m => m)

/-- Second entry of `STALE_PATTERNS` with its `lambda h: int(h)*60`. -/
def staleHourAgo (s : String) : Option Nat :=
  (matchHourAgoG s).map (fun h => h * 60)

/-- Third entry of `STALE_PATTERNS` with its `lambda: 60`: the policy floor
of 60 minutes for the literal `60分以上前`. -/
def staleFloor60 (s : String) : Option Nat :=
  (matchFloor60G s).map (fun _ => 60)

/-- `STALE_PATTERNS` of `src/etl/etl.py`, each pattern paired with its
calculation, as matching functions in source order. -/
def STALE_PATTERNS : List (String → Option Nat) :=
  [staleMinAgo, staleHourAgo, staleFloor60]

/-- First `some` in a list of options (the first regex in the list that
matches wins). -/
def firstSome : List (Option α) → Option α
  | [] => none
  | some a :: _ => some a
  | none :: rest => firstSome rest

/-- `parse_staleness_min` of `src/etl/etl.py`: strip, then try the
`STALE_PATTERNS` in order, first match wins. -/
def parse_staleness_min (raw : String) : Option Nat :=
  firstSome (STALE_PATTERNS.map (fun p => p (stripStr raw)))

/-! ### Time feature enricher (`enrich_time_features` of `src/etl/etl.py`) -/

/-- One decimal ASCII digit, as `pd.to_datetime`'s fixed-format reader
consumes it. -/
def asciiDigit (c : Char) : Option Nat :=
  if 0x30 ≤ c.toNat && c.toNat ≤ 0x39 then some (c.toNat - 0x30) else none

/-- Two decimal ASCII digits as one number. -/
def nat2 (a b : Char) : Option Nat := do
  let x ← asciiDigit a
  let y ← asciiDigit b
  pure (x * 10 + y)

/-- Components of a parsed timestamp: the local (as-written) date and time,
and the UTC offset in minutes when the string carries one. -/
structure TimeParts where
  year : Nat
  month : Nat
  day : Nat
  hour : Nat
  minute : Nat
  second : Nat
  offMinutes : Option Int
  deriving DecidableEq, Repr

/-- The trailing timezone designator: empty (naive), or `±HH:MM`. -/
def parseOffset : List Char → Option (Option Int)
  | [] => some none
  | sgn :: h1 :: h2 :: ':' :: m1 :: m2 :: [] =>
    if sgn = '+' then do
      let h ← nat2 h1 h2
      let m ← nat2 m1 m2
      pure (some ((h * 60 + m : Nat) : Int))
    else if sgn = '-' then do
      let h ← nat2 h1 h2
      let m ← nat2 m1 m2
      pure (some (-((h * 60 + m : Nat) : Int)))
    else none
  | _ => none

/-- `pd.to_datetime` on one ISO-8601 timestamp string
`YYYY-MM-DD[T ]HH:MM:SS[±HH:MM]`; malformed input is the `NaT` case
(`errors="coerce"`), represented by `none`. -/
def parseTimestamp (s : String) : Option TimeParts :=
  match s.toList with
  | y1 :: y2 :: y3 :: y4 :: '-' :: o1 :: o2 :: '-' :: d1 :: d2 :: sep ::
    h1 :: h2 :: ':' :: n1 :: n2 :: ':' :: c1 :: c2 :: rest =>
    if sep = 'T' || sep = ' ' then do
      let yh ← nat2 y1 y2
      let yl ← nat2 y3 y4
      let mo ← nat2 o1 o2
      let dy ← nat2 d1 d2
      let hr ← nat2 h1 h2
      let mi ← nat2 n1 n2
      let sc ← nat2 c1 c2
      let off ← parseOffset rest
      if 1 ≤ mo ∧ mo ≤ 12 ∧ 1 ≤ dy ∧ dy ≤ 31 ∧ hr ≤ 23 ∧ mi ≤ 59 ∧ sc ≤ 59 then
        pure ⟨yh * 100 + yl, mo, dy, hr, mi, sc, off⟩
      else none
    else none
  | _ => none

/-- Days of the proleptic Gregorian calendar since 0000-03-01
(Hinnant's civil-calendar algorithm, valid for year ≥ 1). -/
def daysFromCivil (y m d : Nat) : Nat :=
  let y' := if m ≤ 2 then y - 1 else y
  let era := y' / 400
  let yoe := y' % 400
  let mp := if m > 2 then m - 3 else m + 9
  let doy := (153 * mp + 2) / 5 + (d - 1)
  let doe := yoe * 365 + yoe / 4 - yoe / 100 + doy
  era * 146097 + doe

/-- Inverse of `daysFromCivil`: the (year, month, day) of a day count. -/
def civilFromDays (z : Nat) : Nat × Nat × Nat :=
  let era := z / 146097
  let doe := z % 146097
  let yoe := (doe - doe / 1460 + doe / 36524 - doe / 146096) / 365
  let y := yoe + era * 400
  let doy := doe - (365 * yoe + yoe / 4 - yoe / 100)
  let mp := (5 * doy + 2) / 153
  let d := doy - (153 * mp + 2) / 5 + 1
  let m := if mp < 10 then mp + 3 else mp - 9
  (if m ≤ 2 then y + 1 else y, m, d)

/-- English weekday name of a Gregorian date (`Series.dt.day_name()`,
whose default locale is English): day 0 of `daysFromCivil` (0000-03-01)
is a Wednesday. -/
def weekdayEnglish (y m d : Nat) : String :=
  ["Wednesday", "Thursday", "Friday", "Saturday", "Sunday", "Monday",
   "Tuesday"].getD (daysFromCivil y m d % 7) ""

/-- The `weekday_map` dictionary of `enrich_time_features`. -/
def weekday_map : List (String × String) :=
  [("Monday", "月曜日"), ("Tuesday", "火曜日"), ("Wednesday", "水曜日"),
   ("Thursday", "木曜日"), ("Friday", "金曜日"), ("Saturday", "土曜日"),
   ("Sunday", "日曜日")]

/-- Zero-padded two-digit decimal rendering (`%H`, `%M`, `%S`, `%m`, `%d`). -/
def pad2 (n : Nat) : String :=
  if n < 10 then "0" ++ toString n else toString n

/-- Zero-padded four-digit decimal rendering (`%Y`). -/
def pad4 (n : Nat) : String :=
  if n < 10 then "000" ++ toString n
  else if n < 100 then "00" ++ toString n
  else if n < 1000 then "0" ++ toString n
  else toString n

/-- `tz_convert("Asia/Tokyo")` on an offset-aware timestamp: shift the
wall-clock reading from its own offset to UTC+9 (540 minutes). -/
def toJst (tp : TimeParts) (off : Int) : TimeParts :=
  let base : Int :=
    (daysFromCivil tp.year tp.month tp.day : Int) * 1440 + tp.hour * 60 + tp.minute
  let t := (base - off + 540).toNat
  let c := civilFromDays (t / 1440)
  ⟨c.1, c.2.1, c.2.2, t % 1440 / 60, t % 60, tp.second, some 540⟩

/-- `strftime("%Y-%m-%d")` of a timestamp's date. -/
def fmtDate (tp : TimeParts) : String :=
  pad4 tp.year ++ "-" ++ pad2 tp.month ++ "-" ++ pad2 tp.day

/-- `strftime("%H:%M:%S")` of a timestamp's time of day. -/
def fmtTime (tp : TimeParts) : String :=
  pad2 tp.hour ++ ":" ++ pad2 tp.minute ++ ":" ++ pad2 tp.second

/-- The three columns added by `enrich_time_features`. -/
structure Enriched where
  weekday : Option String
  hour_range : Option String
  data_time_jst : Option String
  deriving DecidableEq, Repr

/-- `enrich_time_features` of `src/etl/etl.py`, per row: parse the
timestamp (unparseable rows keep null-valued features and processing
continues); map the English weekday name through `weekday_map`; format the
truncated hour as `"HH:00"`; render `data_time_jst` converted to UTC+9 with
`%z` (rendered `+0900`) when the input is offset-aware, else as-written
without an offset. -/
def enrich_time_features (timestamp : String) : Enriched :=
  match parseTimestamp timestamp with
  | none => ⟨none, none, none⟩
  | some tp =>
    let wd := weekday_map.lookup (weekdayEnglish tp.year tp.month tp.day)
    let hr := pad2 tp.hour ++ ":00"
    let jst :=
      match tp.offMinutes with
      | some off =>
        let q := toJst tp off
        fmtDate q ++ "T" ++ fmtTime q ++ "+0900"
      | none => fmtDate tp ++ "T" ++ fmtTime tp
    ⟨wd, some hr, some jst⟩

/-! ### Name normalizer (`normalize_name` of `src/etl/etl.py` and
`src/scripts/load_master_from_geojson.py`) -/

/-- The compatibility-mapping stage of `unicodedata.normalize("NFKC", ·)`,
modelled character-wise over the character classes occurring in pavilion
names: the ideographic space U+3000 and the no-break space U+00A0 normalize
to the ASCII space, the full-width ASCII forms U+FF01–U+FF5E normalize to
their half-width counterparts (code point − 0xFEE0), and every other
character of the domain (ASCII, kana, kanji, Latin letters, combining
marks) is a fixed point of this stage. -/
def nfkcChar (c : Char) : Char :=
  if c.toNat = 0x3000 || c.toNat = 0xa0 then ' '
  else if 0xff01 ≤ c.toNat && c.toNat ≤ 0xff5e then Char.ofNat (c.toNat - 0xfee0)
  else c

/-- The canonical-composition table of NFKC restricted to the combining
marks modelled here: a Latin vowel followed by COMBINING ACUTE ACCENT
U+0301 or COMBINING DIAERESIS U+0308 composes to the precomposed Latin-1
letter; every other pair does not compose. -/
def composePair (a b : Char) : Option Char :=
  if b.toNat = 0x301 then
    if a.toNat = 0x61 then some (Char.ofNat 0xe1)
    else if a.toNat = 0x65 then some (Char.ofNat 0xe9)
    else if a.toNat = 0x69 then some (Char.ofNat 0xed)
    else if a.toNat = 0x6f then some (Char.ofNat 0xf3)
    else if a.toNat = 0x75 then some (Char.ofNat 0xfa)
    else none
  else if b.toNat = 0x308 then
    if a.toNat = 0x61 then some (Char.ofNat 0xe4)
    else if a.toNat = 0x6f then some (Char.ofNat 0xf6)
    else if a.toNat = 0x75 then some (Char.ofNat 0xfc)
    else none
  else none

/-- The canonical-composition scan, fuelled by the number of remaining
steps (each step shortens the list by one, so the list's length is always
enough fuel). -/
def canonicalComposeFuel : Nat → List Char → List Char
  | 0, l => l
  | _ + 1, [] => []
  | _ + 1, [c] => [c]
  | n + 1, a :: b :: rest =>
    match composePair a b with
    | some c => canonicalComposeFuel n (c :: rest)
    | none => a :: canonicalComposeFuel n (b :: rest)

/-- The canonical-composition stage of NFKC: scan left to right, composing
a character with its successor whenever `composePair` has an entry for the
pair. -/
def canonicalCompose (l : List Char) : List Char :=
  canonicalComposeFuel l.length l

/-- `re.sub(r"\s+", "", ·)` on a character list: replacing every maximal run
of whitespace by the empty string deletes exactly the whitespace characters. -/
def removeAllWs (cs : List Char) : List Char :=
  cs.filter (fun c => !isPySpace c)

/-- `normalize_name` of `src/etl/etl.py` (identical in
`src/scripts/load_master_from_geojson.py`): NFKC-normalize (compatibility
mapping, then canonical composition), strip, then remove all internal
whitespace. -/
def normalize_name (s : String) : String :=
  ⟨removeAllWs (stripChars (canonicalCompose (s.toList.map nfkcChar)))⟩

/-- Rotate a 32-bit word (a `Nat` below `2^32`) left by `n` bits. -/
def rotl32 (n x : Nat) : Nat :=
  ((x <<< n) ||| (x >>> (32 - n))) % 2 ^ 32

/-- UTF-8 encoding of one character, as a list of bytes. -/
def utf8Bytes (c : Char) : List Nat :=
  let n := c.toNat
  if n < 0x80 then [n]
  else if n < 0x800 then [0xc0 + n / 64, 0x80 + n % 64]
  else if n < 0x10000 then
    [0xe0 + n / 4096, 0x80 + n / 64 % 64, 0x80 + n % 64]
  else
    [0xf0 + n / 262144, 0x80 + n / 4096 % 64, 0x80 + n / 64 % 64, 0x80 + n % 64]

/-- `str.encode("utf-8")`: the UTF-8 bytes of a string. -/
def strUtf8 (s : String) : List Nat :=
  (s.toList.map utf8Bytes).flatten

/-- Big-endian 8-byte encoding of a natural number (the SHA-1 length field). -/
def beBytes8 (n : Nat) : List Nat :=
  [n / 2 ^ 56 % 256, n / 2 ^ 48 % 256, n / 2 ^ 40 % 256, n / 2 ^ 32 % 256,
   n / 2 ^ 24 % 256, n / 2 ^ 16 % 256, n / 2 ^ 8 % 256, n % 256]

/-- SHA-1 message padding: append `0x80`, zero-pad to 56 mod 64, then the
original bit length as 8 big-endian bytes. -/
def sha1Pad (msg : List Nat) : List Nat :=
  msg ++ [0x80] ++ List.replicate ((119 - msg.length % 64) % 64) 0 ++
    beBytes8 (msg.length * 8)

/-- Group a byte list into big-endian 32-bit words. -/
def bytesToWords : List Nat → List Nat
  | b0 :: b1 :: b2 :: b3 :: rest =>
    (((b0 * 256 + b1) * 256 + b2) * 256 + b3) :: bytesToWords rest
  | _ => []

/-- Split a word list into 16-word blocks. -/
def chunk16 : List Nat → List (List Nat)
  | [] => []
  | w :: ws => ((w :: ws).take 16) :: chunk16 ((w :: ws).drop 16)
  termination_by ws => ws.length
  decreasing_by simp [List.length_drop]; omega

/-- One step of the SHA-1 message-schedule extension: append
`rotl1 (w[t-3] xor w[t-8] xor w[t-14] xor w[t-16])`. -/
def sha1ExtendStep (ws : List Nat) : List Nat :=
  let l := ws.length
  ws ++ [rotl32 1 (Nat.xor (Nat.xor (ws.getD (l - 3) 0) (ws.getD (l - 8) 0))
                  (Nat.xor (ws.getD (l - 14) 0) (ws.getD (l - 16) 0)))]

/-- Extend a 16-word block to the 80-word SHA-1 message schedule. -/
def sha1Extend (block : List Nat) : List Nat :=
  (List.range 64).foldl (fun ws _ => sha1ExtendStep ws) block

/-- The SHA-1 round function `f` for round `i` (32-bit complement via xor
with all-ones). -/
def sha1F (i b c d : Nat) : Nat :=
  if i < 20 then (b &&& c) ||| (Nat.xor b 0xffffffff &&& d)
  else if i < 40 then Nat.xor (Nat.xor b c) d
  else if i < 60 then (b &&& c) ||| (b &&& d) ||| (c &&& d)
  else Nat.xor (Nat.xor b c) d

/-- The SHA-1 round constant for round `i`. -/
def sha1K (i : Nat) : Nat :=
  if i < 20 then 0x5a827999
  else if i < 40 then 0x6ed9eba1
  else if i < 60 then 0x8f1bbcdc
  else 0xca62c1d6

/-- SHA-1 compression of one 16-word block into the running 5-word state. -/
def sha1Compress (h : Nat × Nat × Nat × Nat × Nat) (block : List Nat) :
    Nat × Nat × Nat × Nat × Nat :=
  let ws := sha1Extend block
  let final := (List.range 80).foldl
    (fun st i =>
      let (a, b, c, d, e) := st
      let temp := (rotl32 5 a + sha1F i b c d + e + sha1K i + ws.getD i 0) % 2 ^ 32
      (temp, a, rotl32 30 b, c, d))
    (h.1, h.2.1, h.2.2.1, h.2.2.2.1, h.2.2.2.2)
  ((h.1 + final.1) % 2 ^ 32, (h.2.1 + final.2.1) % 2 ^ 32,
   (h.2.2.1 + final.2.2.1) % 2 ^ 32, (h.2.2.2.1 + final.2.2.2.1) % 2 ^ 32,
   (h.2.2.2.2 + final.2.2.2.2) % 2 ^ 32)

/-- Lower-case hexadecimal digit character. -/
def hexDigitChar (n : Nat) : Char :=
  if n < 10 then Char.ofNat ('0'.toNat + n) else Char.ofNat ('a'.toNat + n - 10)

/-- Eight hex digits of one 32-bit word, most significant first. -/
def hexWord (w : Nat) : List Char :=
  [hexDigitChar (w / 2 ^ 28 % 16), hexDigitChar (w / 2 ^ 24 % 16),
   hexDigitChar (w / 2 ^ 20 % 16), hexDigitChar (w / 2 ^ 16 % 16),
   hexDigitChar (w / 2 ^ 12 % 16), hexDigitChar (w / 2 ^ 8 % 16),
   hexDigitChar (w / 2 ^ 4 % 16), hexDigitChar (w % 16)]

/-- `hashlib.sha1(bytes).hexdigest()`: the 40-character hex digest. -/
def sha1Hex (msg : List Nat) : String :=
  let blocks := chunk16 (bytesToWords (sha1Pad msg))
  let h := blocks.foldl sha1Compress
    (0x67452301, 0xefcdab89, 0x98badcfe, 0x10325476, 0xc3d2e1f0)
  ⟨hexWord h.1 ++ hexWord h.2.1 ++ hexWord h.2.2.1 ++ hexWord h.2.2.2.1 ++
   hexWord h.2.2.2.2⟩

/-- `make_pavilion_id` of `src/scripts/load_master_from_geojson.py`:
`"pav_" + sha1(normalize_name(name).encode("utf-8")).hexdigest()[:8]`. -/
def make_pavilion_id (name : String) : String :=
  "pav_" ++ (sha1Hex (strUtf8 (normalize_name name))).take 8

/-- `resolve_pavilion_id` of `src/etl/etl.py`: normalize the raw name and
look it up in the alias map (`dict.get`; missing key yields `none`). -/
def resolve_pavilion_id (name : String) (alias_map : List (String × String)) :
    Option String :=
  alias_map.lookup (normalize_name name)

/-! ### Rows, fact store and the ETL run (`src/etl/etl.py`) -/

/-- One raw input row (the four columns `load_raw_data` requires). -/
structure RawRow where
  timestamp : String
  pavilion_name : String
  wait_time_raw : String
  post_time_raw : String
  deriving DecidableEq, Repr

/-- One row of the `waits_fact` table (columns of `WAITS_FACT_DDL`);
nullable columns are `Option`s. -/
structure FactRow where
  timestamp : String
  pavilion_id : String
  pavilion_name_raw : String
  wait_time_raw : String
  post_time_raw : String
  wait_min : Option Nat
  staleness_min : Option Nat
  weekday : Option String
  hour_range : Option String
  data_time_jst : Option String
  day : Option String
  hour : Option String
  deriving DecidableEq, Repr

/-- One row of the `unresolved_names` table (`UNRESOLVED_DDL`). -/
structure UnresolvedRow where
  timestamp : String
  pavilion_name_raw : String
  wait_time_raw : String
  post_time_raw : String
  deriving DecidableEq, Repr

/-- The per-row computation of `main` in `src/etl/etl.py` (steps 2–4):
parse the wait and staleness strings, enrich time features, resolve the
pavilion id, and derive the `day`/`hour` columns; an unresolvable name
yields `none` (the quarantine path). -/
def processRow (alias_map : List (String × String)) (r : RawRow) :
    Option FactRow :=
  let wait := parse_wait_time r.wait_time_raw
  let stale := parse_staleness_min r.post_time_raw
  let e := enrich_time_features r.timestamp
  match resolve_pavilion_id r.pavilion_name alias_map with
  | none => none
  | some pid =>
    some ⟨r.timestamp, pid, r.pavilion_name, r.wait_time_raw, r.post_time_raw,
          wait, stale, e.weekday, e.hour_range, e.data_time_jst,
          e.data_time_jst.map (fun s => s.take 10), e.hour_range⟩

/-- The primary key of `waits_fact`: `(timestamp, pavilion_id)`. -/
def factKey (f : FactRow) : String × String :=
  (f.timestamp, f.pavilion_id)

/-- Whether the fact table already holds a row under the given key. -/
def hasFactKey (t : List FactRow) (k : String × String) : Bool :=
  t.any (fun f => factKey f == k)

/-- `INSERT OR IGNORE` of one row: skip it when its primary key already
exists, never overwrite. -/
def insertOrIgnoreFact (t : List FactRow) (f : FactRow) : List FactRow :=
  if hasFactKey t (factKey f) then t else t ++ [f]

/-- `upsert_waits_fact` of `src/etl/etl.py`: `INSERT OR IGNORE` of the whole
batch into `waits_fact` under primary key `(timestamp, pavilion_id)`. -/
def upsert_waits_fact (t : List FactRow) (batch : List FactRow) :
    List FactRow :=
  batch.foldl insertOrIgnoreFact t

/-- The primary key of `unresolved_names`: `(timestamp, pavilion_name_raw)`. -/
def unresolvedKey (u : UnresolvedRow) : String × String :=
  (u.timestamp, u.pavilion_name_raw)

/-- Whether the quarantine table already holds a row under the given key. -/
def hasUnresolvedKey (t : List UnresolvedRow) (k : String × String) : Bool :=
  t.any (fun u => unresolvedKey u == k)

/-- `INSERT OR IGNORE` of one quarantine row. -/
def insertOrIgnoreUnresolved (t : List UnresolvedRow) (u : UnresolvedRow) :
    List UnresolvedRow :=
  if hasUnresolvedKey t (unresolvedKey u) then t else t ++ [u]

/-- `drop_duplicates(subset=key)` keeping the first occurrence of each key:
auxiliary recursion carrying the keys already seen. -/
def dedupByKeyAux (key : α → β) [BEq β] (seen : List β) : List α → List α
  | [] => []
  | x :: xs =>
    if seen.contains (key x) then dedupByKeyAux key seen xs
    else x :: dedupByKeyAux key (key x :: seen) xs

/-- `drop_duplicates(subset=key)` keeping the first occurrence of each key. -/
def dedupByKey (key : α → β) [BEq β] (l : List α) : List α :=
  dedupByKeyAux key [] l

/-- `validate_and_clean` of `src/etl/etl.py`: drop in-batch duplicates of
`(timestamp, pavilion_name)`. -/
def validate_and_clean (l : List FactRow) : List FactRow :=
  dedupByKey (fun f => (f.timestamp, f.pavilion_name_raw)) l

/-- `insert_unresolved` of `src/etl/etl.py`: drop in-batch duplicates of
`(timestamp, pavilion_name_raw)`, then `INSERT OR IGNORE` into
`unresolved_names`. -/
def insert_unresolved (t : List UnresolvedRow) (batch : List UnresolvedRow) :
    List UnresolvedRow :=
  (dedupByKey unresolvedKey batch).foldl insertOrIgnoreUnresolved t

/-- The SQLite database as the ETL sees it: the fact table, the quarantine
table, and the alias table — `none` when `pavilion_alias` is absent (the
`sqlite3.OperationalError` case of `load_alias_map_from_db`). -/
structure DBState where
  waits_fact : List FactRow
  unresolved_names : List UnresolvedRow
  pavilion_alias : Option (List (String × String))
  deriving DecidableEq, Repr

/-- `main` of `src/etl/etl.py` over a database state and a validated batch
of raw rows. `load_alias_map_from_db` raises (here: `Except.error`) when the
`pavilion_alias` table is absent, and this happens before the write phase;
otherwise the rows are parsed, enriched, resolved, deduplicated and written
(`upsert_waits_fact`, then `insert_unresolved`). -/
def etl_main (db : DBState) (rows : List RawRow) : Except String DBState :=
  match db.pavilion_alias with
  | none =>
    Except.error "pavilion_alias table not found: run migration and master load first"
  | some amap =>
    let resolved := rows.filterMap (processRow amap)
    let unresolvedRows :=
      (rows.filter (fun r => (processRow amap r).isNone)).map
        (fun r => UnresolvedRow.mk r.timestamp r.pavilion_name
                    r.wait_time_raw r.post_time_raw)
    let cleaned := validate_and_clean resolved
    Except.ok
      { waits_fact := upsert_waits_fact db.waits_fact cleaned
        unresolved_names := insert_unresolved db.unresolved_names unresolvedRows
        pavilion_alias := some amap }

/-- Effect of one ETL run on the database: an aborted run (raised
exception) leaves the database untouched. -/
def runETL (db : DBState) (rows : List RawRow) : DBState :=
  match etl_main db rows with
  | Except.error _ => db
  | Except.ok db' => db'

/-! ### Aggregation query layer (`src/dash_app/data_access.py`) -/

/-- SQLite text comparison `a <= b`: lexicographic on code points (equal to
byte order of the UTF-8 encodings). -/
def listLeB : List Char → List Char → Bool
  | [], _ => true
  | _ :: _, [] => false
  | a :: as, b :: bs =>
    if a.toNat < b.toNat then true
    else if b.toNat < a.toNat then false
    else listLeB as bs

/-- SQLite text comparison on strings. -/
def sqlStrLe (a b : String) : Bool :=
  listLeB a.toList b.toList

/-- `COALESCE(d.name_canonical, w.pavilion_name_raw)`: the canonical name
from `pavilion_dim` when the id joins, else the raw name. -/
def displayName (dim : String → Option String) (f : FactRow) : String :=
  (dim f.pavilion_id).getD f.pavilion_name_raw

/-- The lookback window `day >= cutoff` (`_cutoff_day`); `none` = all time.
A row with NULL `day` never satisfies the SQL comparison. -/
def inWindow (cutoff : Option String) (f : FactRow) : Bool :=
  match cutoff with
  | none => true
  | some c =>
    match f.day with
    | some d => sqlStrLe c d
    | none => false

/-- One row of `get_ranking`'s result: pavilion name, average wait (exact
rational mean) and sample count. -/
structure RankEntry where
  pavilion_name : String
  avg_wait : ℚ
  n : Nat
  deriving DecidableEq, Repr

/-- `ORDER BY avg_wait DESC` as a relation on result rows. -/
def rankLE (a b : RankEntry) : Prop :=
  b.avg_wait ≤ a.avg_wait

instance : DecidableRel rankLE := fun a b =>
  inferInstanceAs (Decidable (b.avg_wait ≤ a.avg_wait))

instance : IsTotal RankEntry rankLE :=
  ⟨fun a b => le_total b.avg_wait a.avg_wait⟩

instance : IsTrans RankEntry rankLE :=
  ⟨fun _ _ _ hab hbc => le_trans hbc hab⟩

/-- The `WHERE` clause of `get_ranking`: non-null `wait_min` rows inside
the window. -/
def rankingRows (t : List FactRow) (cutoff : Option String) : List FactRow :=
  t.filter (fun f => f.wait_min.isSome && inWindow cutoff f)

/-- The `GROUP BY pavilion_name` keys of `get_ranking`. -/
def rankingNames (t : List FactRow) (dim : String → Option String)
    (cutoff : Option String) : List String :=
  ((rankingRows t cutoff).map (displayName dim)).dedup

/-- One `get_ranking` result group: `AVG(wait_min)` (exact rational mean of
the group's non-null waits) and `COUNT(*)`. -/
def rankingEntry (dim : String → Option String) (rows : List FactRow)
    (nm : String) : RankEntry :=
  let grp := rows.filter (fun f => displayName dim f == nm)
  let vals := grp.filterMap (fun f => f.wait_min)
  { pavilion_name := nm
    avg_wait := (vals.foldl (fun a v => a + (v : ℚ)) 0) / (vals.length : ℚ)
    n := grp.length }

/-- The grouped rows of `get_ranking`, one per distinct pavilion name. -/
def rankingEntries (t : List FactRow) (dim : String → Option String)
    (cutoff : Option String) : List RankEntry :=
  (rankingNames t dim cutoff).map (rankingEntry dim (rankingRows t cutoff))

/-- `get_ranking` of `src/dash_app/data_access.py`: filter to non-null
`wait_min` rows inside the window, group by the coalesced pavilion name,
average `wait_min` and count rows per group, order by average descending
(`ORDER BY avg_wait DESC`), and keep the first `top_n` rows (`LIMIT`). -/
def get_ranking (t : List FactRow) (dim : String → Option String)
    (cutoff : Option String) (top_n : Nat) : List RankEntry :=
  (List.insertionSort rankLE (rankingEntries t dim cutoff)).take top_n

/-- The `_ranking` callback of `src/dash_app/callbacks.py` for a finite
window: fall back to the all-time ranking when the windowed ranking has no
rows. -/
def ranking_with_fallback (t : List FactRow) (dim : String → Option String)
    (cutoff : String) (top_n : Nat) : List RankEntry :=
  let rows := get_ranking t dim (some cutoff) top_n
  if rows.isEmpty then get_ranking t dim none top_n else rows

/-! ### Latest-mode map export (`src/scripts/export_map_json.py`) -/

/-- The `latest` CTE of `fetch_latest`: `MAX(timestamp)` per pavilion over
the whole fact table (no filter). -/
def maxTsFor (t : List FactRow) (pid : String) : Option String :=
  t.foldl (fun acc f =>
    if f.pavilion_id == pid then
      match acc with
      | none => some f.timestamp
      | some m => if sqlStrLe m f.timestamp then some f.timestamp else some m
    else acc) none

/-- The freshness ceiling clause of `fetch_latest`:
`staleness_min IS NULL OR staleness_min <= fresh_within`, present only when
`fresh_within` is given. -/
def freshPass (fresh : Option Nat) (f : FactRow) : Bool :=
  match fresh with
  | none => true
  | some k =>
    match f.staleness_min with
    | none => true
    | some s => s ≤ k

/-- `fetch_latest` of `src/scripts/export_map_json.py`: each pavilion's rows
at its maximal timestamp, kept when `wait_min` is non-null and the freshness
clause passes. -/
def fetch_latest (t : List FactRow) (fresh : Option Nat) : List FactRow :=
  t.filter (fun f =>
    maxTsFor t f.pavilion_id == some f.timestamp &&
    f.wait_min.isSome && freshPass fresh f)

/-! ### Concrete rows used in the closed instances -/

/-- The input row of the end-to-end scenario of the spec. -/
def scenarioRow : RawRow :=
  ⟨"2025-06-01T11:05:00+09:00", "アイルランド館", "1時間30分", "5分前"⟩

/-- A fact row whose `wait_min` and `staleness_min` are both NULL — the
newest (only) fact of its pavilion. -/
def exNullFact : FactRow :=
  ⟨"2025-06-01T10:00:00", "p1", "x", "情報なし", "", none, none, none, none,
   none, none, none⟩

/-- A fact row with non-null `wait_min` and NULL `staleness_min` — the
newest (only) fact of its pavilion. -/
def exFreshFact : FactRow :=
  ⟨"2025-06-01T10:00:00", "p1", "x", "30分", "", some 30, none, none, none,
   none, none, none⟩

/-! ## Lemmas about the fact-store upsert -/

theorem hasFactKey_mono (t : List FactRow) (g : FactRow) (k : String × String)
    (h : hasFactKey t k = true) :
    hasFactKey (insertOrIgnoreFact t g) k = true := by
  unfold insertOrIgnoreFact
  split
  · exact h
  · unfold hasFactKey at h ⊢
    simp only [List.any_append, h, Bool.true_or]

theorem hasFactKey_self (t : List FactRow) (g : FactRow) :
    hasFactKey (insertOrIgnoreFact t g) (factKey g) = true := by
  unfold insertOrIgnoreFact
  split
  next h => exact h
  next h =>
    unfold hasFactKey
    simp [List.any_append]

theorem upsert_mono_key (batch : List FactRow) (t : List FactRow)
    (k : String × String) (h : hasFactKey t k = true) :
    hasFactKey (upsert_waits_fact t batch) k = true := by
  induction batch generalizing t with
  | nil => exact h
  | cons g gs ih => exact ih _ (hasFactKey_mono _ _ _ h)

theorem upsert_has_batch_keys (batch : List FactRow) (t : List FactRow)
    (f : FactRow) (hf : f ∈ batch) :
    hasFactKey (upsert_waits_fact t batch) (factKey f) = true := by
  induction batch generalizing t with
  | nil => cases hf
  | cons g gs ih =>
    rcases List.mem_cons.mp hf with rfl | hmem
    · exact upsert_mono_key gs _ _ (hasFactKey_self t f)
    · exact ih _ hmem

theorem upsert_no_new (batch : List FactRow) (t : List FactRow)
    (h : ∀ f ∈ batch, hasFactKey t (factKey f) = true) :
    upsert_waits_fact t batch = t := by
  induction batch with
  | nil => rfl
  | cons g gs ih =>
    have hg : insertOrIgnoreFact t g = t := by
      unfold insertOrIgnoreFact
      rw [if_pos (h g (List.mem_cons_self g gs))]
    show upsert_waits_fact (insertOrIgnoreFact t g) gs = t
    rw [hg]
    exact ih (fun f hf => h f (List.mem_cons_of_mem g hf))

/-- C1: upserting the same batch of resolved rows into the fact store twice
is idempotent: rows whose `(timestamp, pavilion_id)` key already exists are
skipped (insert-or-ignore, never overwrite), so for every fact-table state
and every batch, the table after the second upsert equals the table after
the first — no new facts and no duplicate rows on the second run. -/
theorem claim_C1_upsert_idempotent (t batch : List FactRow) :
    upsert_waits_fact (upsert_waits_fact t batch) batch =
      upsert_waits_fact t batch :=
  upsert_no_new batch _ (fun f hf => upsert_has_batch_keys batch t f hf)

/-! ## The missing-alias-table abort -/

/-- C9: if the alias table cannot be read (it is absent from the store), the
ETL run aborts with an error, and the database — the fact table and the
quarantine table included — is left exactly as it was: no facts and no
unresolved records are added. -/
theorem claim_C9_missing_alias_aborts (db : DBState) (rows : List RawRow)
    (h : db.pavilion_alias = none) :
    (∃ e, etl_main db rows = Except.error e) ∧ runETL db rows = db := by
  constructor
  · refine ⟨"pavilion_alias table not found: run migration and master load first", ?_⟩
    unfold etl_main
    rw [h]
  · unfold runETL etl_main
    rw [h]

theorem claim_C9_witness :
    (DBState.mk [] [] none).pavilion_alias = none ∧
    ((∃ e, etl_main (DBState.mk [] [] none)
        [RawRow.mk "2025-06-01T11:05:00+09:00" "アイルランド館" "1時間30分" "5分前"] =
          Except.error e) ∧
      runETL (DBState.mk [] [] none)
        [RawRow.mk "2025-06-01T11:05:00+09:00" "アイルランド館" "1時間30分" "5分前"] =
          DBState.mk [] [] none) :=
  ⟨rfl, claim_C9_missing_alias_aborts _ _ rfl⟩

/-! ## Lemmas about the name normalizer -/

theorem dropWhile_eq_self_of_none {p : Char → Bool} (l : List Char)
    (h : ∀ c ∈ l, p c = false) : l.dropWhile p = l := by
  cases l with
  | nil => rfl
  | cons a l' =>
    rw [List.dropWhile_cons, if_neg]
    simp [h a (List.mem_cons_self a l')]

theorem stripChars_of_no_ws (cs : List Char)
    (h : ∀ c ∈ cs, isPySpace c = false) : stripChars cs = cs := by
  unfold stripChars
  rw [dropWhile_eq_self_of_none cs h,
    dropWhile_eq_self_of_none cs.reverse
      (fun c hc => h c (List.mem_reverse.mp hc)),
    List.reverse_reverse]

/-- C6: entity resolution is deterministic — resolution is a function of the
normalized name and the (fixed) alias table, so two raw names with the same
normalization resolve identically in every run; and the pavilion identifier
created by the master load factors through the normalized canonical name,
so re-deriving the id from the same name always yields the same id. -/
theorem claim_C6_resolution_deterministic :
    (∀ n₁ n₂ amap, normalize_name n₁ = normalize_name n₂ →
      resolve_pavilion_id n₁ amap = resolve_pavilion_id n₂ amap) ∧
    ∀ n₁ n₂, normalize_name n₁ = normalize_name n₂ →
      make_pavilion_id n₁ = make_pavilion_id n₂ := by
  constructor
  · intro n₁ n₂ amap h
    unfold resolve_pavilion_id
    rw [h]
  · intro n₁ n₂ h
    unfold make_pavilion_id
    rw [h]

theorem claim_C6_witness :
    normalize_name " アイルランド館" = normalize_name "アイルランド館" ∧
    resolve_pavilion_id " アイルランド館"
        [(normalize_name "アイルランド館", "pav_2f7a6b97")] =
      resolve_pavilion_id "アイルランド館"
        [(normalize_name "アイルランド館", "pav_2f7a6b97")] ∧
    make_pavilion_id " アイルランド館" = make_pavilion_id "アイルランド館" :=
  ⟨by decide,
   claim_C6_resolution_deterministic.1 _ _ _ (by decide),
   claim_C6_resolution_deterministic.2 _ _ (by decide)⟩

/-! ## The text parsers -/

/-- C3: `parse_wait_time` tries its four patterns in the fixed priority
order `<H>時間<M>分以下`, `<H>時間<M>分`, `<M>分以下`, `<M>分`, first match
wins, computing `H*60+M` (respectively `M`); every sentinel input
(`情報なし`, `不明`, `—`, `-`, empty after stripping) and every string
matching no pattern yields `none`; it is a total function (never raises)
and never returns a negative or fractional result. -/
theorem claim_C3_parse_wait_time :
    (∀ s : String, isWaitSentinel (stripStr s) = true →
      parse_wait_time s = none) ∧
    (∀ s : String, matchHourMinLe (stripStr s) = none →
      matchHourMin (stripStr s) = none → matchMinLe (stripStr s) = none →
      matchMin (stripStr s) = none → parse_wait_time s = none) ∧
    (∀ s : String, ∀ h m : Nat, isWaitSentinel (stripStr s) = false →
      matchHourMinLe (stripStr s) = some (h, m) →
      parse_wait_time s = some (h * 60 + m)) ∧
    (∀ s : String, ∀ h m : Nat, isWaitSentinel (stripStr s) = false →
      matchHourMinLe (stripStr s) = none →
      matchHourMin (stripStr s) = some (h, m) →
      parse_wait_time s = some (h * 60 + m)) ∧
    (∀ s : String, ∀ m : Nat, isWaitSentinel (stripStr s) = false →
      matchHourMinLe (stripStr s) = none → matchHourMin (stripStr s) = none →
      matchMinLe (stripStr s) = some m → parse_wait_time s = some m) ∧
    (∀ s : String, ∀ m : Nat, isWaitSentinel (stripStr s) = false →
      matchHourMinLe (stripStr s) = none → matchHourMin (stripStr s) = none →
      matchMinLe (stripStr s) = none → matchMin (stripStr s) = some m →
      parse_wait_time s = some m) ∧
    (∀ s : String, ∀ n : Nat, parse_wait_time s = some n → 0 ≤ (n : Int)) := by
  refine ⟨?_, ?_, ?_, ?_, ?_, ?_, ?_⟩
  · intro s h
    simp [parse_wait_time, h]
  · intro s h1 h2 h3 h4
    simp [parse_wait_time, h1, h2, h3, h4]
  · intro s h m hs h1
    simp [parse_wait_time, hs, h1]
  · intro s h m hs h1 h2
    simp [parse_wait_time, hs, h1, h2]
  · intro s m hs h1 h2 h3
    simp [parse_wait_time, hs, h1, h2, h3]
  · intro s m hs h1 h2 h3 h4
    simp [parse_wait_time, hs, h1, h2, h3, h4]
  · intro s n _
    exact Int.natCast_nonneg n

theorem claim_C3_witness :
    (isWaitSentinel (stripStr "情報なし") = true ∧
      parse_wait_time "情報なし" = none) ∧
    parse_wait_time "待ち時間" = none ∧
    parse_wait_time "1時間30分以下" = some (1 * 60 + 30) ∧
    parse_wait_time "1時間30分" = some (1 * 60 + 30) ∧
    parse_wait_time "15分以下" = some 15 ∧
    parse_wait_time "45分" = some 45 ∧
    (0 ≤ (90 : Int)) :=
  ⟨⟨by decide, claim_C3_parse_wait_time.1 _ (by decide)⟩,
   claim_C3_parse_wait_time.2.1 _ (by decide) (by decide) (by decide)
     (by decide),
   claim_C3_parse_wait_time.2.2.1 _ 1 30 (by decide) (by decide),
   claim_C3_parse_wait_time.2.2.2.1 _ 1 30 (by decide) (by decide) (by decide),
   claim_C3_parse_wait_time.2.2.2.2.1 _ 15 (by decide) (by decide) (by decide)
     (by decide),
   claim_C3_parse_wait_time.2.2.2.2.2.1 _ 45 (by decide) (by decide)
     (by decide) (by decide) (by decide),
   claim_C3_parse_wait_time.2.2.2.2.2.2 "1時間30分" 90 (by decide)⟩

theorem firstSome_const {α : Type} (v : α) (l : List (Option α))
    (h : ∀ o ∈ l, o = none ∨ o = some v) (hm : some v ∈ l) :
    firstSome l = some v := by
  induction l with
  | nil => cases hm
  | cons o rest ih =>
    rcases h o (List.mem_cons_self o rest) with rfl | rfl
    · have hm' : some v ∈ rest := by
        rcases List.mem_cons.mp hm with h' | h'
        · cases h'
        · exact h'
      show firstSome rest = some v
      exact ih (fun o ho => h o (List.mem_cons_of_mem _ ho)) hm'
    · rfl

theorem stale_floor_order_independent (l : List (String → Option Nat))
    (hperm : l.Perm STALE_PATTERNS) (s : String)
    (hs : stripStr s = "60分以上前") :
    firstSome (l.map (fun p => p (stripStr s))) = some 60 := by
  rw [hs]
  apply firstSome_const
  · intro o ho
    rcases List.mem_map.mp ho with ⟨p, hp, rfl⟩
    have hp' : p ∈ STALE_PATTERNS := hperm.subset hp
    simp only [STALE_PATTERNS, List.mem_cons, List.mem_singleton,
      List.not_mem_nil, or_false] at hp'
    rcases hp' with rfl | rfl | rfl
    · left; decide
    · left; decide
    · right; decide
  · have hf : staleFloor60 ∈ l :=
      hperm.mem_iff.mpr (by simp [STALE_PATTERNS])
    exact List.mem_map.mpr ⟨staleFloor60, hf, by decide⟩

/-- C4: `parse_staleness_min` maps `<M>分前` to `M` and `<H>時間前` to
`H*60`, and for the literal input `60分以上前` (possibly surrounded by
whitespace) it returns exactly 60, regardless of which pattern of
`STALE_PATTERNS` is tried first (any permutation of the pattern list gives
60 there) and regardless of true elapsed time. -/
theorem claim_C4_parse_staleness :
    (∀ s : String, ∀ m : Nat, matchMinAgoG (stripStr s) = some m →
      parse_staleness_min s = some m) ∧
    (∀ s : String, ∀ h : Nat, matchMinAgoG (stripStr s) = none →
      matchHourAgoG (stripStr s) = some h →
      parse_staleness_min s = some (h * 60)) ∧
    (∀ s : String, stripStr s = "60分以上前" →
      parse_staleness_min s = some 60) ∧
    (∀ l : List (String → Option Nat), l.Perm STALE_PATTERNS →
      ∀ s : String, stripStr s = "60分以上前" →
      firstSome (l.map (fun p => p (stripStr s))) = some 60) := by
  refine ⟨?_, ?_, ?_, stale_floor_order_independent⟩
  · intro s m h
    simp [parse_staleness_min, STALE_PATTERNS, staleMinAgo, h, firstSome]
  · intro s h h1 h2
    simp [parse_staleness_min, STALE_PATTERNS, staleMinAgo, staleHourAgo,
      h1, h2, firstSome]
  · intro s hs
    show firstSome (STALE_PATTERNS.map (fun p => p (stripStr s))) = some 60
    exact stale_floor_order_independent STALE_PATTERNS (List.Perm.refl _) s hs

theorem claim_C4_witness :
    parse_staleness_min "12分前" = some 12 ∧
    parse_staleness_min "2時間前" = some (2 * 60) ∧
    parse_staleness_min " 60分以上前 " = some 60 ∧
    firstSome (STALE_PATTERNS.map (fun p => p (stripStr "60分以上前"))) =
      some 60 :=
  ⟨claim_C4_parse_staleness.1 _ 12 (by decide),
   claim_C4_parse_staleness.2.1 _ 2 (by decide) (by decide),
   claim_C4_parse_staleness.2.2.1 _ (by decide),
   claim_C4_parse_staleness.2.2.2 STALE_PATTERNS (List.Perm.refl _) _
     (by decide)⟩

/-! ## The ranking query -/

/-- C7: `get_ranking` with the all-time window and `top_n = 20` returns at
most 20 groups, sorted in descending order of average wait, and every
returned group is witnessed by a fact with non-null `wait_minutes` — a
pavilion all of whose facts have null `wait_minutes` never appears (null
waits are excluded by the `WHERE` clause, hence from the averages). -/
theorem claim_C7_ranking (t : List FactRow) (dim : String → Option String) :
    (get_ranking t dim none 20).length ≤ 20 ∧
    List.Sorted rankLE (get_ranking t dim none 20) ∧
    ∀ e ∈ get_ranking t dim none 20, ∃ f ∈ t,
      f.wait_min ≠ none ∧ displayName dim f = e.pavilion_name := by
  refine ⟨?_, ?_, ?_⟩
  · rw [show get_ranking t dim none 20 =
      (List.insertionSort rankLE (rankingEntries t dim none)).take 20 from rfl]
    rw [List.length_take]
    exact min_le_left _ _
  · exact List.Pairwise.sublist (List.take_sublist _ _)
      (List.sorted_insertionSort rankLE _)
  · intro e he
    have h1 : e ∈ List.insertionSort rankLE (rankingEntries t dim none) :=
      List.mem_of_mem_take he
    have h2 : e ∈ rankingEntries t dim none :=
      (List.perm_insertionSort rankLE _).subset h1
    rcases List.mem_map.mp h2 with ⟨nm, hnm, rfl⟩
    have hnm' : nm ∈ (rankingRows t none).map (displayName dim) :=
      List.mem_dedup.mp hnm
    rcases List.mem_map.mp hnm' with ⟨f, hf, hdf⟩
    have hf' := List.mem_filter.mp hf
    refine ⟨f, hf'.1, ?_, ?_⟩
    · have := (Bool.and_eq_true _ _).mp hf'.2 |>.1
      exact Option.isSome_iff_ne_none.mp this
    · exact hdf

/-- C8: the dashboard's ranking callback falls back to the all-time window
whenever a finite lookback window yields zero rows: for every store state
and finite cutoff, if no fact falls in the window, the result equals the
ranking over all time. -/
theorem claim_C8_ranking_fallback (t : List FactRow)
    (dim : String → Option String) (cutoff : String) (top_n : Nat)
    (h : ∀ f ∈ t, inWindow (some cutoff) f = false) :
    ranking_with_fallback t dim cutoff top_n = get_ranking t dim none top_n := by
  have hrows : rankingRows t (some cutoff) = [] := by
    apply List.filter_eq_nil_iff.mpr
    intro f hf
    simp [h f hf]
  have hrank : get_ranking t dim (some cutoff) top_n = [] := by
    unfold get_ranking rankingEntries rankingNames
    rw [hrows]
    simp
  unfold ranking_with_fallback
  rw [hrank]
  rfl

theorem claim_C8_witness :
    (∀ f ∈ [FactRow.mk "2025-01-01T10:00:00" "p1" "x" "10分" "" (some 10)
        none none none none (some "2025-01-01") none],
      Expo.inWindow (some "2025-06-01") f = false) ∧
    ranking_with_fallback
        [FactRow.mk "2025-01-01T10:00:00" "p1" "x" "10分" "" (some 10)
          none none none none (some "2025-01-01") none]
        (fun _ => none) "2025-06-01" 20 =
      get_ranking
        [FactRow.mk "2025-01-01T10:00:00" "p1" "x" "10分" "" (some 10)
          none none none none (some "2025-01-01") none]
        (fun _ => none) none 20 :=
  ⟨by decide, claim_C8_ranking_fallback _ _ _ _ (by decide)⟩

/-! ## The latest-mode map export -/

/-- C10, counterexample to the claim as stated: with a freshness ceiling of
60 minutes, the pavilion's newest fact has null `staleness_minutes` yet is
NOT retained, because its `wait_min` is also null and `fetch_latest`'s
`WHERE` clause additionally requires `wait_min IS NOT NULL`. -/
theorem claim_C10_counterexample :
    exNullFact.staleness_min = none ∧
    maxTsFor [exNullFact] exNullFact.pavilion_id =
      some exNullFact.timestamp ∧
    exNullFact ∉ fetch_latest [exNullFact] (some 60) := by
  decide

/-- C10 (amended): in the latest-mode export with a freshness ceiling, a
pavilion's newest fact whose `staleness_minutes` is null **and whose
`wait_minutes` is non-null** is retained (null staleness passes the
ceiling), while a fact with non-null `staleness_minutes` is retained only
when it is at most the ceiling. -/
theorem claim_C10_latest_freshness (t : List FactRow) (fresh : Nat)
    (f : FactRow) (hmem : f ∈ t)
    (hnewest : maxTsFor t f.pavilion_id = some f.timestamp)
    (hstale : f.staleness_min = none) (hwait : f.wait_min ≠ none) :
    f ∈ fetch_latest t (some fresh) ∧
    ∀ g ∈ fetch_latest t (some fresh), ∀ s : Nat,
      g.staleness_min = some s → s ≤ fresh := by
  constructor
  · apply List.mem_filter.mpr
    refine ⟨hmem, ?_⟩
    rw [hnewest]
    simp [freshPass, hstale, Option.isSome_iff_ne_none.mpr hwait]
  · intro g hg s hs
    have hp := (List.mem_filter.mp hg).2
    have h3 := ((Bool.and_eq_true _ _).mp hp).2
    unfold freshPass at h3
    rw [hs] at h3
    exact of_decide_eq_true h3

theorem claim_C10_witness :
    (exFreshFact ∈ [exFreshFact] ∧
      maxTsFor [exFreshFact] exFreshFact.pavilion_id =
        some exFreshFact.timestamp ∧
      exFreshFact.staleness_min = none ∧ exFreshFact.wait_min ≠ none) ∧
    (exFreshFact ∈ fetch_latest [exFreshFact] (some 60) ∧
      ∀ g ∈ fetch_latest [exFreshFact] (some 60), ∀ s : Nat,
        g.staleness_min = some s → s ≤ 60) :=
  ⟨⟨by decide, by decide, by decide, by decide⟩,
   claim_C10_latest_freshness [exFreshFact] 60 exFreshFact (by decide)
     (by decide) (by decide) (by decide)⟩

/-! ## The end-to-end scenario -/

/-- C2: processing the row with timestamp `2025-06-01T11:05:00+09:00`,
pavilion name `アイルランド館`, wait string `1時間30分` and post string
`5分前` — the end-to-end scenario — with any alias table that
maps the normalized name `アイルランド館` to some pavilion id produces a
fact with `wait_minutes = 90`, `staleness_minutes = 5`,
`weekday = 日曜日`, `hour_bucket = 11:00` and
`calendar_day = 2025-06-01`. -/
theorem claim_C2_end_to_end (amap : List (String × String)) (pid : String)
    (h : resolve_pavilion_id "アイルランド館" amap = some pid) :
    processRow amap scenarioRow =
      some ⟨"2025-06-01T11:05:00+09:00", pid, "アイルランド館", "1時間30分",
            "5分前", some 90, some 5, some "日曜日", some "11:00",
            some "2025-06-01T11:05:00+0900", some "2025-06-01",
            some "11:00"⟩ := by
  unfold processRow
  rw [show scenarioRow.pavilion_name = "アイルランド館" from rfl, h]
  rfl

theorem claim_C2_witness :
    resolve_pavilion_id "アイルランド館"
        [(normalize_name "アイルランド館", "pav_abc123")] =
      some "pav_abc123" ∧
    processRow [(normalize_name "アイルランド館", "pav_abc123")] scenarioRow =
      some ⟨"2025-06-01T11:05:00+09:00", "pav_abc123", "アイルランド館",
            "1時間30分", "5分前", some 90, some 5, some "日曜日",
            some "11:00", some "2025-06-01T11:05:00+0900",
            some "2025-06-01", some "11:00"⟩ :=
  ⟨by decide, claim_C2_end_to_end _ "pav_abc123" (by decide)⟩

end Expo

-- quick sanity examples (removed style: they are theorems, kept as checks)
example : Expo.parse_wait_time "1時間30分" = some 90 := by decide
example : Expo.parse_wait_time "0時間10分以下" = some 10 := by decide
example : Expo.parse_wait_time "15分以下" = some 15 := by decide
example : Expo.parse_wait_time " 15分 " = some 15 := by decide
example : Expo.parse_wait_time "情報なし" = none := by decide
example : Expo.parse_wait_time "" = none := by decide
example : Expo.parse_wait_time "abc" = none := by decide
example : Expo.parse_staleness_min "12分前" = some 12 := by decide
example : Expo.parse_staleness_min "1時間前" = some 60 := by decide
example : Expo.parse_staleness_min "60分以上前" = some 60 := by decide
example : Expo.parse_staleness_min " 60分以上前 " = some 60 := by decide
example : Expo.parse_staleness_min "5分前" = some 5 := by decide
